import Mathlib

/-!
# QtPromise — verification of the Deferred/ChildDeferred/Promise core

Shallow embedding of the promise-chaining engine of the QtPromise library
(`src/Deferred.cpp`, `src/ChildDeferred.cpp`, `src/Promise.h`, `src/Promise.cpp`).

The payload type `QVariant` is modelled as an inductive covering the value
shapes the library manipulates (null, strings, ints, bools, lists of variants,
and the distinguished `DeferredDestroyed` marker used by `Deferred::~Deferred`).

A `Deferred` is the one-shot settlement cell: a state in {Pending, Resolved,
Rejected} plus the settled payload.  Its operations `resolve`/`reject`/`notify`
return the boolean result the C++ methods return, the updated cell, and the
list of Qt signals emitted during the call (signal emission is how subscribers
are run, synchronously, in the source).
-/

namespace QtPromise

/-- Model of `QVariant`: the untyped payload box used for resolve values,
rejection reasons and progress data. `deferredDestroyed` models
`QVariant::fromValue(DeferredDestroyed(this))` used by the `Deferred`
destructor. -/
inductive QVariant where
  | null
  | str (s : String)
  | int (n : Int)
  | boolv (b : Bool)
  | list (xs : List QVariant)
  | deferredDestroyed

/-- `Deferred::State` from `Deferred.h`: `Pending = 0, Resolved = 1, Rejected = -1`. -/
inductive DState where
  | Pending
  | Resolved
  | Rejected
deriving DecidableEq, Repr

/-- The signals a `Deferred` emits (`resolved`, `rejected`, `notified` in
`Deferred.h`); emitting a signal runs all connected subscribers synchronously. -/
inductive DeferredEvent where
  | resolved (v : QVariant)
  | rejected (v : QVariant)
  | notified (v : QVariant)

/-- The observable fields of a `Deferred`: `m_state` and `m_data`
(`Deferred.h`, accessed through `state()` and `data()`). -/
structure Deferred where
  state : DState
  data : QVariant

/-- Result of calling `resolve`/`reject`/`notify` on a `Deferred`:
the boolean the method returns, the cell afterwards, and the signals emitted
during the call. -/
structure ActionResult where
  ok : Bool
  deferred : Deferred
  events : List DeferredEvent

/-- `Deferred::create()` (`Deferred.cpp`): a fresh cell is Pending with a
default-constructed (null) `QVariant`. -/
def Deferred.createPending : Deferred := ⟨DState.Pending, QVariant.null⟩

/-- `Deferred::resolve` (`Deferred.cpp`): if Pending, store the value, move to
Resolved, emit `resolved(m_data)` and return true; otherwise log and return
false, leaving the cell untouched. -/
def Deferred.resolve (d : Deferred) (value : QVariant) : ActionResult :=
  if d.state = DState.Pending then
    ⟨true, ⟨DState.Resolved, value⟩, [DeferredEvent.resolved value]⟩
  else
    ⟨false, d, []⟩

/-- `Deferred::reject` (`Deferred.cpp`): symmetric to `resolve` for Rejected. -/
def Deferred.reject (d : Deferred) (reason : QVariant) : ActionResult :=
  if d.state = DState.Pending then
    ⟨true, ⟨DState.Rejected, reason⟩, [DeferredEvent.rejected reason]⟩
  else
    ⟨false, d, []⟩

/-- `Deferred::notify` (`Deferred.cpp`): if Pending, emit `notified(progress)`
and return true; the cell's `m_state`/`m_data` are never touched. Otherwise
return false and emit nothing. -/
def Deferred.notify (d : Deferred) (progress : QVariant) : ActionResult :=
  if d.state = DState.Pending then
    ⟨true, d, [DeferredEvent.notified progress]⟩
  else
    ⟨false, d, []⟩

/-- `Deferred::create(State, const QVariant&)` (`Deferred.cpp`): creates a
fresh cell and rejects it if `state == Rejected`, otherwise (Resolved and,
by the `default:` label, also Pending) resolves it. -/
def Deferred.create (state : DState) (data : QVariant) : Deferred :=
  match state with
  | DState.Rejected => (Deferred.createPending.reject data).deferred
  | _ => (Deferred.createPending.resolve data).deferred

/-- `Deferred::~Deferred` (`Deferred.cpp`): if still Pending at destruction,
the cell first rejects itself with the `DeferredDestroyed` marker (running
rejection subscribers via the emitted `rejected` signal); otherwise nothing
happens. Returns the cell just before teardown and the signals emitted. -/
def Deferred.destruct (d : Deferred) : Deferred × List DeferredEvent :=
  if d.state = DState.Pending then
    let r := d.reject QVariant.deferredDestroyed
    (r.deferred, r.events)
  else
    (d, [])

/-- `Promise` (`Promise.h`): a read-only facade over its `m_deferred`;
`state()` and `data()` forward to the deferred. -/
structure Promise where
  m_deferred : Deferred

/-- `Promise::state()` (`Promise.cpp`): forwards to `m_deferred->state()`. -/
def Promise.state (p : Promise) : DState := p.m_deferred.state

/-- `Promise::data()` (`Promise.cpp`): forwards to `m_deferred->data()`. -/
def Promise.pdata (p : Promise) : QVariant := p.m_deferred.data

/-- `Promise::create(Deferred::Ptr)` (`Promise.cpp`): wraps the deferred. -/
def Promise.create (d : Deferred) : Promise := ⟨d⟩

/-- `Promise::createResolved` (`Promise.cpp`): a Promise over
`Deferred::create(Deferred::Resolved, value)`. -/
def Promise.createResolved (value : QVariant) : Promise :=
  Promise.create (Deferred.create DState.Resolved value)

/-- `Promise::createRejected` (`Promise.cpp`): a Promise over
`Deferred::create(Deferred::Rejected, reason)`. -/
def Promise.createRejected (reason : QVariant) : Promise :=
  Promise.create (Deferred.create DState.Rejected reason)

/-- The four shapes a `then()` callback can have, selected in the source by
overload resolution on the callback's return type (`Promise.h`):
`nullptr`, a void-returning function (side effects only — the `tag`
distinguishes different such functions, whose effects are outside the model),
a `QVariant`-returning function, and a `Promise::Ptr`-returning function. -/
inductive Callback where
  | null
  | voidF (tag : Nat)
  | variantF (f : QVariant → QVariant)
  | promiseF (g : QVariant → Promise)

/-- `Promise::callCallback` (`Promise.h`, the four overloads): the synchronous
fast path of `then()` on an already-settled promise.  Returns the promise the
overload returns together with the list of arguments the callback was invoked
with (empty for `nullptr`, a single `m_deferred->data()` otherwise).
- `nullptr`: `create(m_deferred)` — same deferred, no call;
- void-returning: `func(m_deferred->data()); create(m_deferred)`;
- `QVariant`-returning: a fresh deferred is always *resolved* with the
  callback's return value;
- `Promise::Ptr`-returning: the callback's promise is returned as-is. -/
def Promise.callCallback (p : Promise) : Callback → Promise × List QVariant
  | Callback.null => (Promise.create p.m_deferred, [])
  | Callback.voidF _ => (Promise.create p.m_deferred, [p.m_deferred.data])
  | Callback.variantF f =>
      let newValue := f p.m_deferred.data
      let newDeferred := (Deferred.createPending.resolve newValue).deferred
      (Promise.create newDeferred, [p.m_deferred.data])
  | Callback.promiseF g => (g p.m_deferred.data, [p.m_deferred.data])

/-- Result of a `then()` call: the returned promise, the trace of callback
invocations made synchronously during the call (tagged with the branch —
Resolved for the resolved callback, Rejected for the rejected callback — and
carrying the argument), and whether a `ChildDeferred` subscription to the
parent's signals was made. -/
structure ThenResult where
  promise : Promise
  calls : List (DState × QVariant)
  subscribed : Bool

/-- `Promise::then` (`Promise.h`): on an already-Resolved (resp. Rejected)
promise it immediately calls `callCallback` on the resolved (resp. rejected)
callback — no `ChildDeferred` is created; only when Pending does it create a
`ChildDeferred` over `m_deferred` and connect the three callback wrappers to
the parent's signals (the wrappers themselves are modelled by
`applyCallbackWrapper`). -/
def Promise.then (p : Promise) (resolvedCallback : Callback)
    (rejectedCallback : Callback) (notifiedCallback : Callback) : ThenResult :=
  match p.state with
  | DState.Resolved =>
      let (q, args) := p.callCallback resolvedCallback
      ⟨q, args.map (fun a => (DState.Resolved, a)), false⟩
  | DState.Rejected =>
      let (q, args) := p.callCallback rejectedCallback
      ⟨q, args.map (fun a => (DState.Rejected, a)), false⟩
  | DState.Pending =>
      -- ChildDeferred::create(m_deferred) starts Pending; the three wrappers
      -- built from resolvedCallback/rejectedCallback/notifiedCallback are
      -- connected to the parent's resolved/rejected/notified signals.
      ⟨Promise.create Deferred.createPending, [], true⟩

/-- Result of one callback wrapper firing on the new (child) deferred:
the child afterwards, the arguments the user callback was invoked with, and,
for a `Promise::Ptr`-returning callback whose inner promise is still pending,
the inner deferred the child subscribed to for later adoption. -/
structure WrapperResult where
  child : Deferred
  calls : List QVariant
  adopted : Option Deferred

/-- `Promise::createCallbackWrapper` (`Promise.h`, the four overloads), as the
function the wrapper applies when the parent's `resolved` (`forState =
Resolved`) or `rejected` (`forState = Rejected`) signal fires with payload
`data`:
- `nullptr`: child.resolve(data) resp. child.reject(data);
- void-returning: invoke the callback, then resolve resp. reject with `data`;
- `QVariant`-returning: the child is always *resolved* with the callback's
  return value, for both branches;
- `Promise::Ptr`-returning: adopt the inner promise's settled outcome, or
  subscribe to it when the inner promise is still pending. -/
def applyCallbackWrapper (cb : Callback) (forState : DState) (child : Deferred)
    (data : QVariant) : WrapperResult :=
  match cb with
  | Callback.null =>
      match forState with
      | DState.Resolved => ⟨(child.resolve data).deferred, [], none⟩
      | _ => ⟨(child.reject data).deferred, [], none⟩
  | Callback.voidF _ =>
      match forState with
      | DState.Resolved => ⟨(child.resolve data).deferred, [data], none⟩
      | _ => ⟨(child.reject data).deferred, [data], none⟩
  | Callback.variantF f =>
      ⟨(child.resolve (f data)).deferred, [data], none⟩
  | Callback.promiseF g =>
      let intermedDeferred := (g data).m_deferred
      match intermedDeferred.state with
      | DState.Resolved => ⟨(child.resolve intermedDeferred.data).deferred, [data], none⟩
      | DState.Rejected => ⟨(child.reject intermedDeferred.data).deferred, [data], none⟩
      | DState.Pending => ⟨child, [data], some intermedDeferred⟩

/-! ## ChildDeferred result tracking and the `all`/`any` combinators

`Promise::all_impl`/`any_impl` (`Promise.h`) build a `ChildDeferred` over all
input promises' deferreds with `trackResults = true` and connect its aggregate
signals to its own `resolve`/`reject` slots:
- `all`: `parentsResolved → resolve`, `parentRejected → reject`;
- `any`: `parentResolved → resolve`, `parentsRejected → reject`.

`ChildDeferred` (`ChildDeferred.cpp`) holds the parent deferreds in input
order together with `m_resolvedCount`/`m_rejectedCount`.  When a parent's
`resolved` signal fires, `onParentResolved` increments `m_resolvedCount`,
emits `parentResolved(value)` and, once the count reaches `m_parents.size()`,
collects every parent's `data()` *in parent order* and emits
`parentsResolved(results)`; `onParentRejected` is symmetric.  Parents that are
already settled when tracking starts are replayed through a zero-timeout
timer, so every completion is uniformly an event.

We model an execution as the combined `ChildDeferred` state stepped by
parent-completion events (parent `i` resolves/rejects with a payload).  An
event on a parent that does not exist or is already settled does nothing —
a parent's `resolved`/`rejected` signal fires only on its one-shot
Pending → settled transition. -/

/-- The aggregate signals `ChildDeferred` emits (`ChildDeferred.h`). -/
inductive AggSignal where
  | parentResolved (value : QVariant)
  | parentsResolved (results : List QVariant)
  | parentRejected (reason : QVariant)
  | parentsRejected (reasons : List QVariant)

/-- The state of a result-tracking `ChildDeferred` together with its parents:
`m_parents`, `m_resolvedCount`, `m_rejectedCount` (`ChildDeferred.h`) and the
combined deferred's own settlement cell (it *is a* `Deferred`). -/
structure ChildDeferred where
  m_parents : List Deferred
  m_resolvedCount : Nat
  m_rejectedCount : Nat
  self : Deferred

/-- The `ChildDeferred` built by `all_impl`/`any_impl` over `n` parents that
are still pending: counts at zero, combined cell freshly Pending. -/
def ChildDeferred.init (n : Nat) : ChildDeferred :=
  ⟨List.replicate n Deferred.createPending, 0, 0, Deferred.createPending⟩

/-- A parent-completion event: parent `i`'s underlying operation finishes,
i.e. `resolve`/`reject` is called on parent `i` with the given payload. -/
inductive ParentEvent where
  | resolveEvt (i : Nat) (value : QVariant)
  | rejectEvt (i : Nat) (reason : QVariant)

/-- `ChildDeferred::onParentResolved` (`ChildDeferred.cpp`) triggered by
resolving parent `i` with `value`: if parent `i` exists and is Pending, it
transitions to Resolved (storing `value`), the count is incremented,
`parentResolved(value)` is emitted and, when the count reaches
`m_parents.size()`, `parentsResolved` is emitted with every parent's `data()`
in parent order.  A nonexistent or already-settled parent produces no signal
(`Deferred::resolve` emits only on the Pending → Resolved transition). -/
def ChildDeferred.stepResolve (c : ChildDeferred) (i : Nat) (value : QVariant) :
    ChildDeferred × List AggSignal :=
  if h : i < c.m_parents.length then
    if c.m_parents[i].state = DState.Pending then
      let parents := c.m_parents.set i ⟨DState.Resolved, value⟩
      let count := c.m_resolvedCount + 1
      let sigs :=
        AggSignal.parentResolved value ::
          (if count = parents.length then
            [AggSignal.parentsResolved (parents.map Deferred.data)]
          else [])
      (⟨parents, count, c.m_rejectedCount, c.self⟩, sigs)
    else (c, [])
  else (c, [])

/-- `ChildDeferred::onParentRejected` (`ChildDeferred.cpp`), symmetric to
`ChildDeferred.stepResolve`. -/
def ChildDeferred.stepReject (c : ChildDeferred) (i : Nat) (reason : QVariant) :
    ChildDeferred × List AggSignal :=
  if h : i < c.m_parents.length then
    if c.m_parents[i].state = DState.Pending then
      let parents := c.m_parents.set i ⟨DState.Rejected, reason⟩
      let count := c.m_rejectedCount + 1
      let sigs :=
        AggSignal.parentRejected reason ::
          (if count = parents.length then
            [AggSignal.parentsRejected (parents.map Deferred.data)]
          else [])
      (⟨parents, c.m_resolvedCount, count, c.self⟩, sigs)
    else (c, [])
  else (c, [])

/-- The signal wiring of `Promise::all_impl` (`Promise.h`):
`parentsResolved → Deferred::resolve` and `parentRejected → Deferred::reject`
on the combined deferred itself. -/
def allApplySignal (d : Deferred) : AggSignal → Deferred
  | AggSignal.parentsResolved results => (d.resolve (QVariant.list results)).deferred
  | AggSignal.parentRejected reason => (d.reject reason).deferred
  | _ => d

/-- The signal wiring of `Promise::any_impl` (`Promise.h`):
`parentResolved → Deferred::resolve` and `parentsRejected → Deferred::reject`
on the combined deferred itself. -/
def anyApplySignal (d : Deferred) : AggSignal → Deferred
  | AggSignal.parentResolved value => (d.resolve value).deferred
  | AggSignal.parentsRejected reasons => (d.reject (QVariant.list reasons)).deferred
  | _ => d

/-- One parent-completion event processed by a `ChildDeferred` whose aggregate
signals are wired by `apply` (the `all` or `any` wiring). -/
def ChildDeferred.step (apply : Deferred → AggSignal → Deferred)
    (c : ChildDeferred) (e : ParentEvent) : ChildDeferred :=
  let (c2, sigs) :=
    match e with
    | ParentEvent.resolveEvt i v => c.stepResolve i v
    | ParentEvent.rejectEvt i r => c.stepReject i r
  { c2 with self := sigs.foldl apply c2.self }

/-- `Promise::all(promises)` over `n` initially-pending parents, run against a
sequence of parent-completion events. -/
def runAll (n : Nat) (events : List ParentEvent) : ChildDeferred :=
  events.foldl (ChildDeferred.step allApplySignal) (ChildDeferred.init n)

/-- `Promise::any(promises)` over `n` initially-pending parents, run against a
sequence of parent-completion events. -/
def runAny (n : Nat) (events : List ParentEvent) : ChildDeferred :=
  events.foldl (ChildDeferred.step anyApplySignal) (ChildDeferred.init n)

/-! ## Theorems -/

/-- With zero parents, every parent-completion event is impossible (there is no
parent to fire), so stepping the combined `ChildDeferred` leaves it unchanged,
whatever the signal wiring. -/
lemma step_no_parents (apply : Deferred → AggSignal → Deferred)
    (c : ChildDeferred) (hc : c.m_parents = []) (e : ParentEvent) :
    ChildDeferred.step apply c e = c := by
  cases c
  cases e with
  | resolveEvt i v =>
      simp_all [ChildDeferred.step, ChildDeferred.stepResolve]
  | rejectEvt i r =>
      simp_all [ChildDeferred.step, ChildDeferred.stepReject]

/-- With zero parents, any sequence of events leaves the combined
`ChildDeferred` unchanged. -/
lemma foldl_no_parents (apply : Deferred → AggSignal → Deferred)
    (events : List ParentEvent) (c : ChildDeferred) (hc : c.m_parents = []) :
    events.foldl (ChildDeferred.step apply) c = c := by
  induction events with
  | nil => rfl
  | cons e es ih =>
      rw [List.foldl_cons, step_no_parents apply c hc e]
      exact ih

/-- C2: once a Deferred is settled (`state() ≠ Pending`), every subsequent
`resolve`/`reject` returns false and leaves `state()`/`data()` unchanged, and
`notify` returns false with no observable effect (no signal emitted). -/
theorem C2_settled_is_final (d : Deferred) (v r p : QVariant)
    (h : d.state ≠ DState.Pending) :
    (d.resolve v).ok = false ∧ (d.resolve v).deferred = d ∧ (d.resolve v).events = [] ∧
    (d.reject r).ok = false ∧ (d.reject r).deferred = d ∧ (d.reject r).events = [] ∧
    (d.notify p).ok = false ∧ (d.notify p).deferred = d ∧ (d.notify p).events = [] := by
  simp [Deferred.resolve, Deferred.reject, Deferred.notify, h]

/-- Witness for C2 at a concrete settled Deferred. -/
theorem C2_settled_is_final_witness :
    (Deferred.mk DState.Resolved (QVariant.int 1)).state ≠ DState.Pending ∧
    (((Deferred.mk DState.Resolved (QVariant.int 1)).resolve (QVariant.int 2)).ok = false ∧
     ((Deferred.mk DState.Resolved (QVariant.int 1)).resolve (QVariant.int 2)).deferred
        = Deferred.mk DState.Resolved (QVariant.int 1) ∧
     ((Deferred.mk DState.Resolved (QVariant.int 1)).resolve (QVariant.int 2)).events = [] ∧
     ((Deferred.mk DState.Resolved (QVariant.int 1)).reject (QVariant.str "e")).ok = false ∧
     ((Deferred.mk DState.Resolved (QVariant.int 1)).reject (QVariant.str "e")).deferred
        = Deferred.mk DState.Resolved (QVariant.int 1) ∧
     ((Deferred.mk DState.Resolved (QVariant.int 1)).reject (QVariant.str "e")).events = [] ∧
     ((Deferred.mk DState.Resolved (QVariant.int 1)).notify (QVariant.int 3)).ok = false ∧
     ((Deferred.mk DState.Resolved (QVariant.int 1)).notify (QVariant.int 3)).deferred
        = Deferred.mk DState.Resolved (QVariant.int 1) ∧
     ((Deferred.mk DState.Resolved (QVariant.int 1)).notify (QVariant.int 3)).events = []) :=
  ⟨by decide,
   C2_settled_is_final (Deferred.mk DState.Resolved (QVariant.int 1))
     (QVariant.int 2) (QVariant.str "e") (QVariant.int 3) (by decide)⟩

/-- C5: a Deferred still Pending at destruction first rejects itself with the
distinguished `DeferredDestroyed` reason — the `rejected` signal fires with
that reason, running rejection subscribers before teardown — whereas an
already-settled Deferred performs no such rejection. -/
theorem C5_destructor_rejects_pending (d1 d2 : Deferred)
    (h1 : d1.state = DState.Pending) (h2 : d2.state ≠ DState.Pending) :
    d1.destruct.2 = [DeferredEvent.rejected QVariant.deferredDestroyed] ∧
    d1.destruct.1.state = DState.Rejected ∧
    d1.destruct.1.data = QVariant.deferredDestroyed ∧
    d2.destruct = (d2, []) := by
  simp [Deferred.destruct, Deferred.reject, h1, h2]

/-- Witness for C5 at a concrete pending and a concrete settled Deferred. -/
theorem C5_destructor_rejects_pending_witness :
    (Deferred.mk DState.Pending QVariant.null).state = DState.Pending ∧
    (Deferred.mk DState.Resolved (QVariant.int 4)).state ≠ DState.Pending ∧
    ((Deferred.mk DState.Pending QVariant.null).destruct.2
        = [DeferredEvent.rejected QVariant.deferredDestroyed] ∧
     (Deferred.mk DState.Pending QVariant.null).destruct.1.state = DState.Rejected ∧
     (Deferred.mk DState.Pending QVariant.null).destruct.1.data = QVariant.deferredDestroyed ∧
     (Deferred.mk DState.Resolved (QVariant.int 4)).destruct
        = (Deferred.mk DState.Resolved (QVariant.int 4), [])) :=
  ⟨by decide, by decide,
   C5_destructor_rejects_pending (Deferred.mk DState.Pending QVariant.null)
     (Deferred.mk DState.Resolved (QVariant.int 4)) (by decide) (by decide)⟩

/-- C7: `Promise::createResolved(v)->then(f)` with a void-returning (side
effect only) callback `f` returns a promise that is Resolved with value `v` —
observing through a side-effect-only `then` is the identity on state and
payload.  `tag` ranges over all such callbacks; the rejected/notified
callbacks are arbitrary. -/
theorem C7_then_void_is_identity (v : QVariant) (tag : Nat)
    (rejectedCallback notifiedCallback : Callback) :
    ((Promise.createResolved v).then (Callback.voidF tag)
        rejectedCallback notifiedCallback).promise.m_deferred
      = Deferred.mk DState.Resolved v := by
  rfl

/-- C9: `Deferred::create(state, data)` with any state other than Rejected —
including Pending — returns a Resolved deferred holding `data`; the factory
can never produce a still-pending deferred. -/
theorem C9_create_pending_like_resolved (s : DState) (data : QVariant)
    (h : s ≠ DState.Rejected) :
    Deferred.create s data = Deferred.mk DState.Resolved data := by
  cases s with
  | Rejected => exact absurd rfl h
  | Pending => rfl
  | Resolved => rfl

/-- Witness for C9 at `state = Pending`. -/
theorem C9_create_pending_like_resolved_witness :
    DState.Pending ≠ DState.Rejected ∧
    Deferred.create DState.Pending (QVariant.int 7)
      = Deferred.mk DState.Resolved (QVariant.int 7) :=
  ⟨by decide, C9_create_pending_like_resolved DState.Pending (QVariant.int 7) (by decide)⟩

/-- C10: `Deferred::notify` leaves the cell — `state()` and `data()` — exactly
as it was, in every state including Pending; the progress value is only
carried by the emitted `notified` signal and is never stored as the payload. -/
theorem C10_notify_never_stores (d : Deferred) (p : QVariant) :
    (d.notify p).deferred.state = d.state ∧
    (d.notify p).deferred.data = d.data ∧
    ((d.notify p).events = [DeferredEvent.notified p] ∨ (d.notify p).events = []) := by
  unfold Deferred.notify
  split <;> simp

/-- C1 counterexample: `Promise::all([])` does *not* resolve — immediately
after construction (no events can ever occur with zero parents) the combined
promise is still Pending, not Resolved. -/
theorem C1_all_empty_counterexample :
    (runAll 0 []).self.state = DState.Pending ∧
    (runAll 0 []).self.state ≠ DState.Resolved := by
  decide

/-- C1 (amended): for the empty input container, the promise returned by
`Promise::all([])` never settles — with zero parents no parent-completion
event exists, so after any sequence of events it is still Pending.
(`ChildDeferred::setParents` makes no connections for an empty parent list and
the `m_resolvedCount == m_parents.size()` check only runs inside
`onParentResolved`, which never fires.) -/
theorem C1_all_empty_stays_pending (events : List ParentEvent) :
    (runAll 0 events).self.state = DState.Pending := by
  unfold runAll
  rw [foldl_no_parents allApplySignal events (ChildDeferred.init 0) rfl]
  rfl

/-- C8: for the empty input container, the promise returned by
`Promise::any([])` never settles: with zero parents no `parentResolved` or
`parentsRejected` event can ever fire, so after any sequence of events the
combined promise is still Pending. -/
theorem C8_any_empty_never_settles (events : List ParentEvent) :
    (runAny 0 events).self.state = DState.Pending := by
  unfold runAny
  rw [foldl_no_parents anyApplySignal events (ChildDeferred.init 0) rfl]
  rfl

/-- C3: a `QVariant`-returning callback installed as the *rejected* callback
always yields a **Resolved** promise carrying the callback's return value —
both on the synchronous fast path (`then` on an already-Rejected promise) and
through the pending-path wrapper (parent becomes Rejected later). -/
theorem C3_variant_rejection_handler_resolves (f : QVariant → QVariant)
    (reason : QVariant) (p : Promise) (child : Deferred)
    (resolvedCallback notifiedCallback : Callback)
    (hp : p.state = DState.Rejected) (hchild : child.state = DState.Pending) :
    (p.then resolvedCallback (Callback.variantF f) notifiedCallback).promise.m_deferred
        = Deferred.mk DState.Resolved (f p.pdata) ∧
    (applyCallbackWrapper (Callback.variantF f) DState.Rejected child reason).child
        = Deferred.mk DState.Resolved (f reason) := by
  constructor
  · simp [Promise.then, hp, Promise.callCallback, Deferred.createPending,
      Deferred.resolve, Promise.create, Promise.pdata]
  · simp [applyCallbackWrapper, Deferred.resolve, hchild]

/-- Witness for C3: the spec's concrete scenario
`Promise::createRejected("boom")->then(nullptr, reason -> "recovered:"+reason)`
yields a Resolved promise with data `"recovered:boom"`. -/
theorem C3_variant_rejection_handler_resolves_witness :
    (Promise.createRejected (QVariant.str "boom")).state = DState.Rejected ∧
    Deferred.createPending.state = DState.Pending ∧
    (((Promise.createRejected (QVariant.str "boom")).then Callback.null
        (Callback.variantF fun v =>
          match v with
          | QVariant.str s => QVariant.str ("recovered:" ++ s)
          | v => v)
        Callback.null).promise.m_deferred
        = Deferred.mk DState.Resolved (QVariant.str "recovered:boom") ∧
     (applyCallbackWrapper
        (Callback.variantF fun v =>
          match v with
          | QVariant.str s => QVariant.str ("recovered:" ++ s)
          | v => v)
        DState.Rejected Deferred.createPending (QVariant.str "boom")).child
        = Deferred.mk DState.Resolved (QVariant.str "recovered:boom")) :=
  ⟨by decide, by decide,
   C3_variant_rejection_handler_resolves
     (fun v =>
       match v with
       | QVariant.str s => QVariant.str ("recovered:" ++ s)
       | v => v)
     (QVariant.str "boom") (Promise.createRejected (QVariant.str "boom"))
     Deferred.createPending Callback.null Callback.null (by decide) (by decide)⟩

/-- C6: `then()` on an already-settled promise takes the synchronous fast
path: the corresponding callback (resolved callback on a Resolved promise,
rejected callback on a Rejected one) is invoked during the `then()` call
itself with the settled payload, no `ChildDeferred` subscription is made, and
the returned promise already wraps the settled result per the dispatch rules
(`nullptr`/void-returning: same deferred; `QVariant`-returning: a fresh
deferred Resolved with the callback's return value; `Promise`-returning: the
callback's promise). -/
theorem C6_then_settled_fast_path (p q : Promise)
    (resolvedCallback rejectedCallback notifiedCallback : Callback)
    (resolvedCallback2 rejectedCallback2 notifiedCallback2 : Callback)
    (hp : p.state = DState.Resolved) (hq : q.state = DState.Rejected) :
    ((p.then resolvedCallback rejectedCallback notifiedCallback).subscribed = false ∧
     (p.then resolvedCallback rejectedCallback notifiedCallback).calls =
       (match resolvedCallback with
        | Callback.null => []
        | _ => [(DState.Resolved, p.pdata)]) ∧
     (p.then resolvedCallback rejectedCallback notifiedCallback).promise =
       (match resolvedCallback with
        | Callback.null => Promise.create p.m_deferred
        | Callback.voidF _ => Promise.create p.m_deferred
        | Callback.variantF f => Promise.create (Deferred.mk DState.Resolved (f p.pdata))
        | Callback.promiseF g => g p.pdata)) ∧
    ((q.then resolvedCallback2 rejectedCallback2 notifiedCallback2).subscribed = false ∧
     (q.then resolvedCallback2 rejectedCallback2 notifiedCallback2).calls =
       (match rejectedCallback2 with
        | Callback.null => []
        | _ => [(DState.Rejected, q.pdata)]) ∧
     (q.then resolvedCallback2 rejectedCallback2 notifiedCallback2).promise =
       (match rejectedCallback2 with
        | Callback.null => Promise.create q.m_deferred
        | Callback.voidF _ => Promise.create q.m_deferred
        | Callback.variantF f => Promise.create (Deferred.mk DState.Resolved (f q.pdata))
        | Callback.promiseF g => g q.pdata)) := by
  constructor
  · refine ⟨?_, ?_, ?_⟩ <;> cases resolvedCallback <;>
      simp [Promise.then, hp, Promise.callCallback, Promise.pdata, Promise.create,
        Deferred.createPending, Deferred.resolve]
  · refine ⟨?_, ?_, ?_⟩ <;> cases rejectedCallback2 <;>
      simp [Promise.then, hq, Promise.callCallback, Promise.pdata, Promise.create,
        Deferred.createPending, Deferred.resolve]

/-- Witness for C6: `then` on `createResolved(5)` with a doubling
`QVariant`-returning callback, and on `createRejected("x")` with a
side-effect-only callback. -/
theorem C6_then_settled_fast_path_witness :
    (Promise.createResolved (QVariant.int 5)).state = DState.Resolved ∧
    (Promise.createRejected (QVariant.str "x")).state = DState.Rejected ∧
    ((((Promise.createResolved (QVariant.int 5)).then
          (Callback.variantF fun v =>
            match v with
            | QVariant.int n => QVariant.int (2 * n)
            | v => v) Callback.null Callback.null).subscribed = false ∧
      ((Promise.createResolved (QVariant.int 5)).then
          (Callback.variantF fun v =>
            match v with
            | QVariant.int n => QVariant.int (2 * n)
            | v => v) Callback.null Callback.null).calls
        = [(DState.Resolved, QVariant.int 5)] ∧
      ((Promise.createResolved (QVariant.int 5)).then
          (Callback.variantF fun v =>
            match v with
            | QVariant.int n => QVariant.int (2 * n)
            | v => v) Callback.null Callback.null).promise
        = Promise.create (Deferred.mk DState.Resolved (QVariant.int 10))) ∧
     (((Promise.createRejected (QVariant.str "x")).then Callback.null
          (Callback.voidF 0) Callback.null).subscribed = false ∧
      ((Promise.createRejected (QVariant.str "x")).then Callback.null
          (Callback.voidF 0) Callback.null).calls
        = [(DState.Rejected, QVariant.str "x")] ∧
      ((Promise.createRejected (QVariant.str "x")).then Callback.null
          (Callback.voidF 0) Callback.null).promise
        = Promise.create (Deferred.mk DState.Rejected (QVariant.str "x")))) :=
  ⟨by decide, by decide,
   C6_then_settled_fast_path
     (Promise.createResolved (QVariant.int 5)) (Promise.createRejected (QVariant.str "x"))
     (Callback.variantF fun v =>
       match v with
       | QVariant.int n => QVariant.int (2 * n)
       | v => v) Callback.null Callback.null
     Callback.null (Callback.voidF 0) Callback.null (by decide) (by decide)⟩

/-- The event sequence that completes the parents of `all(promises)`: each
pair `(i, v)` is parent `i`'s operation finishing with value `v`. -/
def resolveEvents (pairs : List (Nat × QVariant)) : List ParentEvent :=
  pairs.map fun iv => ParentEvent.resolveEvt iv.1 iv.2

/-- Loop invariant for `all` with every parent resolving: while `rest` still
holds the completions to come (distinct parent indices, each paired with that
parent's value in `vs`), the parents not in `rest` are already Resolved with
their value, the resolved count equals the number of parents done, and the
combined deferred is still Pending.  Processing all remaining completions
settles the combined deferred to Resolved with the values in parent order. -/
lemma runAll_resolve_loop (vs : List QVariant) :
    ∀ (rest : List (Nat × QVariant)) (c : ChildDeferred),
      c.m_parents.length = vs.length →
      c.m_resolvedCount + rest.length = vs.length →
      c.self.state = DState.Pending →
      (rest.map Prod.fst).Nodup →
      (∀ iv ∈ rest, vs[iv.1]? = some iv.2) →
      (∀ n, n < vs.length →
        c.m_parents[n]? = some (if n ∈ rest.map Prod.fst
          then Deferred.createPending
          else Deferred.mk DState.Resolved (vs.getD n QVariant.null))) →
      rest ≠ [] →
      ((resolveEvents rest).foldl (ChildDeferred.step allApplySignal) c).self
        = Deferred.mk DState.Resolved (QVariant.list vs) := by
  intro rest
  induction rest with
  | nil => intro c _ _ _ _ _ _ hne; exact absurd rfl hne
  | cons iv rest ih =>
    intro c hlen hcount hself hnodup hvals hpar _
    obtain ⟨i, v⟩ := iv
    have hv : vs[i]? = some v := hvals (i, v) (List.mem_cons_self _ _)
    obtain ⟨hi, hvi⟩ := List.getElem?_eq_some_iff.mp hv
    have hmapcons : ((i, v) :: rest).map Prod.fst = i :: rest.map Prod.fst := by
      simp
    rw [hmapcons] at hnodup
    obtain ⟨hinotin, hndrest⟩ := List.nodup_cons.mp hnodup
    have hilt : i < c.m_parents.length := by rw [hlen]; exact hi
    have hpari : c.m_parents[i]? = some Deferred.createPending := by
      have h := hpar i hi
      rw [hmapcons] at h
      simpa [List.mem_cons] using h
    obtain ⟨_, hgeti⟩ := List.getElem?_eq_some_iff.mp hpari
    have hstate : c.m_parents[i].state = DState.Pending := by rw [hgeti]; rfl
    have hvgetd : vs.getD i QVariant.null = v := by
      rw [List.getD_eq_getElem?_getD, hv]; rfl
    have hplen : (c.m_parents.set i (Deferred.mk DState.Resolved v)).length = vs.length := by
      rw [List.length_set, hlen]
    rw [resolveEvents, List.map_cons, List.foldl_cons]
    by_cases hrest : rest = []
    · subst hrest
      have hcnt : c.m_resolvedCount + 1
          = (c.m_parents.set i (Deferred.mk DState.Resolved v)).length := by
        rw [hplen]
        simpa using hcount
      have hmap : (c.m_parents.set i (Deferred.mk DState.Resolved v)).map Deferred.data
          = vs := by
        apply List.ext_getElem?
        intro n
        rw [List.getElem?_map]
        by_cases hn : n < vs.length
        · by_cases hni : n = i
          · subst hni
            have hsome : (c.m_parents.set n (Deferred.mk DState.Resolved v))[n]?
                = some (Deferred.mk DState.Resolved v) := by
              rw [List.getElem?_set_self]
              · simp [List.getElem?_eq_some_iff, hilt]
            rw [hsome, hv]
            rfl
          · have hne2 : (c.m_parents.set i (Deferred.mk DState.Resolved v))[n]?
                = c.m_parents[n]? := List.getElem?_set_ne (by omega)
            have h2 := hpar n hn
            rw [hmapcons] at h2
            have hcond : n ∉ (i :: ([] : List (Nat × QVariant)).map Prod.fst) := by
              simp [hni]
            rw [hne2, h2, if_neg (by simpa using hcond)]
            have hvn : vs[n]? = some (vs.getD n QVariant.null) := by
              rw [List.getD_eq_getElem?_getD]
              rcases List.getElem?_eq_some_iff.mpr ⟨hn, rfl⟩ with h3
              rw [h3]
              rfl
            rw [hvn]
            rfl
        · have h1 : (c.m_parents.set i (Deferred.mk DState.Resolved v))[n]? = none :=
            List.getElem?_eq_none (by omega)
          have h2 : vs[n]? = none := List.getElem?_eq_none (by omega)
          rw [h1, h2]
          rfl
      simp only [ChildDeferred.step, ChildDeferred.stepResolve, List.map_nil,
        List.foldl_nil, dif_pos hilt, if_pos hstate, if_pos hcnt]
      simp only [List.foldl_cons, List.foldl_nil, allApplySignal, hmap]
      simp [Deferred.resolve, hself]
    · have hrl : 0 < rest.length := List.length_pos.mpr hrest
      have hcnt : ¬ (c.m_resolvedCount + 1
          = (c.m_parents.set i (Deferred.mk DState.Resolved v)).length) := by
        rw [hplen]
        simp only [List.length_cons] at hcount
        omega
      simp only [ChildDeferred.step, ChildDeferred.stepResolve,
        dif_pos hilt, if_pos hstate, if_neg hcnt]
      simp only [List.foldl_cons, List.foldl_nil, allApplySignal]
      have hres := ih ⟨c.m_parents.set i (Deferred.mk DState.Resolved v),
        c.m_resolvedCount + 1, c.m_rejectedCount, c.self⟩
      rw [resolveEvents] at hres
      apply hres
      · exact hplen
      · show c.m_resolvedCount + 1 + rest.length = vs.length
        simp only [List.length_cons] at hcount
        omega
      · exact hself
      · exact hndrest
      · intro jw hjw
        exact hvals jw (List.mem_cons_of_mem _ hjw)
      · intro n hn
        by_cases hni : n = i
        · subst hni
          rw [List.getElem?_set_self]
          · rw [if_neg hinotin, hvgetd]
          · exact hilt
        · have hne2 : (c.m_parents.set i (Deferred.mk DState.Resolved v))[n]?
              = c.m_parents[n]? := List.getElem?_set_ne (by omega)
          have h2 := hpar n hn
          rw [hmapcons] at h2
          rw [hne2, h2]
          by_cases hmem : n ∈ rest.map Prod.fst
          · rw [if_pos (by simp [hmem]), if_pos hmem]
          · rw [if_neg (by simp [hni, hmem]), if_neg hmem]
      · exact hrest

/-- C4: for every non-empty list of parent values, `Promise::all` over
initially-pending parents that all resolve settles the combined promise to
Resolved with the list of every parent's value *in input order*, for every
permutation of the order in which the parents complete (`pairs` is any
permutation of `vs.enum`, pairing each parent index with its value). -/
theorem C4_all_resolves_in_input_order (vs : List QVariant)
    (pairs : List (Nat × QVariant))
    (hne : vs ≠ []) (hperm : pairs.Perm vs.enum) :
    (runAll vs.length (resolveEvents pairs)).self
      = Deferred.mk DState.Resolved (QVariant.list vs) := by
  have hfst : (pairs.map Prod.fst).Perm (List.range vs.length) := by
    have h := hperm.map Prod.fst
    rwa [List.enum_map_fst] at h
  apply runAll_resolve_loop vs pairs (ChildDeferred.init vs.length)
  · simp [ChildDeferred.init]
  · have h := hperm.length_eq
    rw [List.enum_length] at h
    simpa [ChildDeferred.init] using h
  · rfl
  · exact hfst.nodup_iff.mpr (List.nodup_range _)
  · intro iv hiv
    have hmem : iv ∈ vs.enum := hperm.mem_iff.mp hiv
    obtain ⟨i, x⟩ := iv
    exact List.mk_mem_enum_iff_getElem?.mp hmem
  · intro n hn
    have hmem : n ∈ pairs.map Prod.fst :=
      hfst.mem_iff.mpr (List.mem_range.mpr hn)
    simp [ChildDeferred.init, hmem, List.getElem?_replicate, hn]
  · intro h
    apply hne
    have hl := hperm.length_eq
    rw [h, List.enum_length] at hl
    exact List.length_eq_zero.mp hl.symm

/-- Witness for C4: two parents with values `1` and `"a"`, completing in
reverse order; the combined promise resolves with the values in input order. -/
theorem C4_all_resolves_in_input_order_witness :
    ([QVariant.int 1, QVariant.str "a"] : List QVariant) ≠ [] ∧
    ([((1 : Nat), QVariant.str "a"), ((0 : Nat), QVariant.int 1)]).Perm
      ([QVariant.int 1, QVariant.str "a"] : List QVariant).enum ∧
    (runAll 2 (resolveEvents [(1, QVariant.str "a"), (0, QVariant.int 1)])).self
      = Deferred.mk DState.Resolved
          (QVariant.list [QVariant.int 1, QVariant.str "a"]) :=
  ⟨by simp, List.Perm.swap _ _ _,
   C4_all_resolves_in_input_order [QVariant.int 1, QVariant.str "a"]
     [(1, QVariant.str "a"), (0, QVariant.int 1)]
     (by simp) (List.Perm.swap _ _ _)⟩

end QtPromise
